import Mathlib

/-!
Shallow embedding of the Client Health/Failover Coordinator and the Network
State Snapshot Builder of the smartnode repository:

* `src/src/rocketpool-daemon/common/state/manager.go` — `GetHeadSlot`,
  `GetLatestProposedBeaconBlock`;
* the `NetworkStateManager` of the v1 daemon (`UpdateStateToHead`,
  `UpdateStateToFinalized`, `GetLatestState`, `updateState`), whose slot
  translation and backward missing-block walk are line-identical to the
  functions above;
* `src/shared/services/requirements.go` — `checkExecutionClientStatus`,
  `waitEthClientSynced`, `waitBeaconClientSynced`, `IsSyncWithinThreshold`.

Go `uint64` values are modelled as `Nat` with wraparound made explicit where
it matters (`decSlot`). Fallible Go calls are modelled as `Except String`
values supplied by the environment; the polling loops, which in Go run until
they return, are modelled over the finite list of per-iteration environment
observations: exhausting the list means the loop is still polling
(`WaitResult.running`).
-/

/-- The modulus of Go's `uint64`. -/
def UINT64_MOD : Nat := 2 ^ 64

/-- One `targetSlot--` step on a Go `uint64`: decrementing zero wraps to
`2^64 - 1` (manager.go line 127 / the v1 `UpdateStateToFinalized` loop). -/
def decSlot (s : Nat) : Nat := if s = 0 then UINT64_MOD - 1 else s - 1

/-- A Beacon block, identified by the slot it was proposed in (the only part
of `beacon.BeaconBlock` the walk's behaviour depends on). -/
structure BeaconBlock where
  slot : Nat
deriving DecidableEq

/-- The outcome of one `bc.GetBeaconBlock(slot)` probe: the Go call returns
`(block, exists, err)`. -/
inductive ProbeResult where
  | probeErr (e : String)
  | missing
  | block (b : BeaconBlock)
deriving DecidableEq

/-- An error-free beacon chain view: `blocks r = some b` means slot `r` has
proposed block `b`, `none` means the slot was missed. -/
def probeOf (blocks : Nat → Option BeaconBlock) : Nat → ProbeResult :=
  fun s =>
    match blocks s with
    | none => ProbeResult.missing
    | some b => ProbeResult.block b

/-- `GetLatestProposedBeaconBlock` (manager.go lines 116-132), and the
identical backward walk inside the v1 `UpdateStateToFinalized`: probe the
target slot; on a transport error wrap and return it; if the block exists
return it; if it is missing decrement the `uint64` slot counter and retry.
The Go loop is unbounded (`for { ... }`), so the model takes `fuel`: a result
of `none` means the loop has not returned within `fuel` iterations. -/
def GetLatestProposedBeaconBlock (probe : Nat → ProbeResult) (targetSlot : Nat)
    (fuel : Nat) : Option (Except String BeaconBlock) :=
  match fuel with
  | 0 => none
  | k + 1 =>
    match probe targetSlot with
    | ProbeResult.probeErr e => some (Except.error ("error getting Beacon block: " ++ e))
    | ProbeResult.block b => some (Except.ok b)
    | ProbeResult.missing => GetLatestProposedBeaconBlock probe (decSlot targetSlot) k

/-- The greatest slot `r ≤ s` at which a block exists, if any: the slot the
spec says the backward walk must resolve to. -/
def greatestProposedSlot (blocks : Nat → Option BeaconBlock) (s : Nat) : Option Nat :=
  if (blocks s).isSome then some s
  else
    match s with
    | 0 => none
    | k + 1 => greatestProposedSlot blocks k

/-- `GetHeadSlot` (manager.go lines 100-113) and the identical slot
translation in the v1 `UpdateStateToHead`: take the latest execution-layer
header fetch (`header` is the result of `HeaderByNumber`), subtract the
genesis time and divide by the seconds-per-slot.

The Go code computes `uint64(latestBlockTime.Sub(genesisTime).Seconds())`.
When the header timestamp is at or after genesis this is exactly the
difference in seconds; when the timestamp is BEFORE genesis the conversion of
a negative `float64` to `uint64` is implementation-defined in Go, so the
model takes that junk value as the explicit parameter `negConv`. There is no
check and no error path for that case in the source. -/
def GetHeadSlot (header : Except String Nat) (genesisTime secondsPerSlot negConv : Nat) :
    Except String Nat :=
  match header with
  | Except.error e => Except.error ("error getting latest EL block: " ++ e)
  | Except.ok headerTime =>
    let secondsSinceGenesis := if genesisTime ≤ headerTime then headerTime - genesisTime else negConv
    Except.ok (secondsSinceGenesis / secondsPerSlot)

/-- A point-in-time execution-client status, as `checkExecutionClientStatus`
reads it from the manager status (`IsWorking`, `IsSynced`, `Error`). -/
structure EcStatus where
  isWorking : Bool
  isSynced : Bool
  error : String
deriving DecidableEq

/-- The `ExecutionClientManagerStatus` consulted by
`checkExecutionClientStatus`: the primary's status, whether a fallback is
configured, and the fallback's status. -/
structure EcManagerStatus where
  primaryEcStatus : EcStatus
  fallbackEnabled : Bool
  fallbackEcStatus : EcStatus
deriving DecidableEq

/-- The manager as seen after `CheckStatus()` ran: the raw status plus the
`primaryReady` / `fallbackReady` flags the manager derives from it. -/
structure EcManagerView where
  status : EcManagerStatus
  primaryReady : Bool
  fallbackReady : Bool
deriving DecidableEq

/-- Modelled from the spec: `ExecutionClientManager.CheckStatus` itself is not
among the repository files (only its caller `checkExecutionClientStatus` is).
Per the spec's health-tracker state machine, `primaryReady` holds exactly when
the primary reports Synced, and `fallbackReady` exactly when a fallback is
configured and reports Synced. -/
def CheckStatus (st : EcManagerStatus) : EcManagerView :=
  { status := st
    primaryReady := st.primaryEcStatus.isSynced
    fallbackReady := st.fallbackEnabled && st.fallbackEcStatus.isSynced }

/-- Which client the wait loop is told to poll (`clientToCheck`). -/
inductive EcRef where
  | primary
  | fallback
deriving DecidableEq

/-- `checkExecutionClientStatus` (requirements.go lines 358-396). Returns the
Go triple `(synced bool, clientToCheck, err)`: ready via primary or fallback;
otherwise the working client to wait on; otherwise an error naming both
endpoints' failures. -/
def checkExecutionClientStatus (m : EcManagerView) : Bool × Option EcRef × Option String :=
  if m.primaryReady then (true, none, none)
  else if m.fallbackReady then (true, none, none)
  else if m.status.primaryEcStatus.isWorking && (m.status.primaryEcStatus.error == "") then
    (false, some EcRef.primary, none)
  else if m.status.fallbackEnabled && m.status.fallbackEcStatus.isWorking
      && (m.status.fallbackEcStatus.error == "") then
    (false, some EcRef.fallback, none)
  else if m.status.fallbackEnabled then
    (false, none, some ("Primary execution client is unavailable ("
      ++ m.status.primaryEcStatus.error ++ ") and fallback execution client is unavailable ("
      ++ m.status.fallbackEcStatus.error ++ "), no execution clients are ready."))
  else
    (false, none, some ("Primary execution client is unavailable ("
      ++ m.status.primaryEcStatus.error ++ ") and no fallback execution client is configured."))

/-- requirements.go line 27: `ethClientRecentBlockThreshold` = 5 minutes,
in seconds. -/
def ethClientRecentBlockThreshold : Int := 300

/-- requirements.go line 28: `ethClientStatusRefreshInterval` = 60 seconds. -/
def ethClientStatusRefreshInterval : Rat := 60

/-- `IsSyncWithinThreshold` (requirements.go lines 532-545): fetch the latest
block timestamp (here `latestBlockTimestamp` is that fetch's result) and
report whether it is within `ethClientRecentBlockThreshold` of the current
wall-clock time `now` (unix seconds). Returns the Go pair `(bool, blockTime)`
or the fetch's error. -/
def IsSyncWithinThreshold (latestBlockTimestamp : Except String Nat) (now : Int) :
    Except String (Bool × Int) :=
  match latestBlockTimestamp with
  | Except.error e => Except.error e
  | Except.ok ts =>
    let blockTime : Int := (ts : Int)
    if now - blockTime < ethClientRecentBlockThreshold then Except.ok (true, blockTime)
    else Except.ok (false, blockTime)

/-- An `ethereum.SyncProgress` object (`currentBlock`, `startingBlock`,
`highestBlock`); its fields only feed the verbose log line. -/
structure SyncProgress where
  currentBlock : Nat
  startingBlock : Nat
  highestBlock : Nat
deriving DecidableEq

/-- The environment of one iteration of the `waitEthClientSynced` loop:
the clock readings at its two time checks, the manager status that a refresh
would observe, and the results of its probes (`SyncProgress`, and the
latest-block-timestamp fetch inside `IsSyncWithinThreshold` together with the
wall clock it is compared against). -/
structure EcIter where
  elapsed : Rat
  sinceRefresh : Rat
  refreshStatus : EcManagerStatus
  progress : Except String (Option SyncProgress)
  latestBlockTimestamp : Except String Nat
  now : Int

/-- Whether an iteration's sync-progress probe returned an explicit progress
object (the Go branch `progress != nil`). -/
def progressIsSome : Except String (Option SyncProgress) → Bool
  | Except.ok (some _) => true
  | _ => false

/-- What a Go wait function returned: `(synced, nil)` is `done synced`,
`(false, err)` is `failed err`; `running` means the loop is still polling
after consuming all the supplied iterations. -/
inductive WaitResult where
  | done (synced : Bool)
  | failed (e : String)
  | running
deriving DecidableEq

/-- The `for` loop of `waitEthClientSynced` (requirements.go lines 426-478):
per iteration, first the timeout check (`timeout > 0` and elapsed seconds
exceed it → return `(false, nil)`); then, if the status-refresh interval has
elapsed, re-run `checkExecutionClientStatus` (error → return it, synced →
return `(true, nil)`); then the `SyncProgress` probe (error → return it;
an explicit progress object → keep polling; no progress object → apply
`IsSyncWithinThreshold`: error → return it, within threshold → `(true, nil)`,
otherwise keep polling). -/
def waitEthLoop (timeout : Int) (iters : List EcIter) : WaitResult :=
  match iters with
  | [] => WaitResult.running
  | it :: rest =>
    if 0 < timeout ∧ (timeout : Rat) < it.elapsed then WaitResult.done false
    else
      let refreshOutcome : Option WaitResult :=
        if ethClientStatusRefreshInterval < it.sinceRefresh then
          match checkExecutionClientStatus (CheckStatus it.refreshStatus) with
          | (synced, _, errOpt) =>
            match errOpt with
            | some e => some (WaitResult.failed e)
            | none => if synced then some (WaitResult.done true) else none
        else none
      match refreshOutcome with
      | some r => r
      | none =>
        match it.progress with
        | Except.error e => WaitResult.failed e
        | Except.ok (some _) => waitEthLoop timeout rest
        | Except.ok none =>
          match IsSyncWithinThreshold it.latestBlockTimestamp it.now with
          | Except.error e => WaitResult.failed e
          | Except.ok (upToDate, _) =>
            if upToDate then WaitResult.done true else waitEthLoop timeout rest

/-- `waitEthClientSynced` (requirements.go lines 398-480), from the point the
client manager is in hand: one initial `checkExecutionClientStatus` (error →
return it, synced → `(true, nil)`), then the polling loop. -/
def waitEthClientSynced (initial : EcManagerStatus) (timeout : Int) (iters : List EcIter) :
    WaitResult :=
  match checkExecutionClientStatus (CheckStatus initial) with
  | (synced, _, errOpt) =>
    match errOpt with
    | some e => WaitResult.failed e
    | none => if synced then WaitResult.done true else waitEthLoop timeout iters

/-- A consensus-client `GetSyncStatus` response (`Syncing` flag). -/
structure BeaconSyncStatus where
  syncing : Bool
deriving DecidableEq

/-- The environment of one iteration of the `waitBeaconClientSynced` loop:
the elapsed unix seconds at its timeout check and its `GetSyncStatus` probe
result. The loop consults nothing else. -/
structure BcIter where
  elapsed : Int
  syncStatus : Except String BeaconSyncStatus

/-- `waitBeaconClientSynced` (requirements.go lines 486-529), from the point
the beacon client is in hand: per iteration the timeout check (`timeout > 0`
and elapsed unix seconds exceed it → `(false, nil)`), then `GetSyncStatus`
(error → return it; still syncing → keep polling; else → `(true, nil)`). -/
def waitBeaconClientSynced (timeout : Int) (iters : List BcIter) : WaitResult :=
  match iters with
  | [] => WaitResult.running
  | it :: rest =>
    if 0 < timeout ∧ timeout < it.elapsed then WaitResult.done false
    else
      match it.syncStatus with
      | Except.error e => WaitResult.failed e
      | Except.ok s => if s.syncing then waitBeaconClientSynced timeout rest else WaitResult.done true

/-- A built network-state snapshot. `CreateNetworkState` and the snapshot's
contents are outside the embedded core; only the identity of the published
snapshot matters here, carried by a tag. -/
structure NetworkState where
  tag : Nat
deriving DecidableEq

/-- `updateState` of the v1 `NetworkStateManager`: run the build
(`createResult` is what `CreateNetworkState` returned); on error return it
with `latestState` untouched; on success publish the snapshot as
`latestState` and return it. -/
def updateState (latestState : Option NetworkState) (createResult : Except String NetworkState) :
    Option NetworkState × Except String NetworkState :=
  match createResult with
  | Except.error e => (latestState, Except.error e)
  | Except.ok st => (some st, Except.ok st)

/-- `GetLatestState` of the v1 `NetworkStateManager`: read the latest
published snapshot (the manager starts with none). -/
def GetLatestState (latestState : Option NetworkState) : Option NetworkState :=
  latestState

/-- The `latestState` field after a sequence of builds, starting from the
freshly created manager (`latestState = nil`). -/
def runUpdates (builds : List (Except String NetworkState)) : Option NetworkState :=
  builds.foldl (fun latest b => (updateState latest b).1) none

/-- The spec's reading of the same history: the snapshot of the last
successful build, absent when no build has succeeded. -/
def lastSuccessfulBuild (builds : List (Except String NetworkState)) : Option NetworkState :=
  builds.foldl (fun acc b =>
    match b with
    | Except.ok st => some st
    | Except.error _ => acc) none

/-! ## Theorems -/

/-- With a beacon client that reports every slot missing, the walk never
returns, from any starting slot, within any number of iterations. -/
theorem walk_all_missing (s fuel : Nat) :
    GetLatestProposedBeaconBlock (fun _ => ProbeResult.missing) s fuel = none := by
  induction fuel generalizing s with
  | zero => rfl
  | succ k ih => simpa [GetLatestProposedBeaconBlock] using ih (decSlot s)

/-- C1: the claim says the backward missing-block walk fails with
`NoBlockFound` rather than looping forever or decrementing the slot counter
below zero when no slot down to 0 has a block. The code has no floor and no
such error: starting at slot 0 with every slot missing, the loop has not
returned after any number of iterations, and the `uint64` slot counter wraps
from 0 to `2^64 - 1`. -/
theorem c1_walk_has_no_floor :
    (∀ fuel, GetLatestProposedBeaconBlock (fun _ => ProbeResult.missing) 0 fuel = none) ∧
    decSlot 0 = 2 ^ 64 - 1 := by
  exact ⟨fun fuel => walk_all_missing 0 fuel, rfl⟩

/-- C2: the claim says that for a head block timestamp before the genesis time
the translation fails with a `ConfigurationError`. The code performs no such
check: with genesis time 1000 and head timestamp 999 it still returns a slot
number (the quotient of the implementation-defined `uint64` conversion of the
negative difference), for every value `negConv` of that conversion. -/
theorem c2_pre_genesis_still_returns_slot :
    ∀ negConv : Nat, GetHeadSlot (Except.ok 999) 1000 12 negConv = Except.ok (negConv / 12) := by
  intro negConv
  simp [GetHeadSlot]

/-- C3: if some slot at or below the target `s` has a block, the walk returns
the block of the greatest slot `r ≤ s` at which a block exists (`r` is
characterised by having block `b` while every slot in `(r, s]` is missing). -/
theorem c3_walk_returns_greatest_proposed (blocks : Nat → Option BeaconBlock)
    (s r : Nat) (b : BeaconBlock) (hr : r ≤ s) (hb : blocks r = some b)
    (hmax : ∀ k, r < k → k ≤ s → blocks k = none) :
    GetLatestProposedBeaconBlock (probeOf blocks) s (s + 1) = some (Except.ok b) := by
  induction s with
  | zero =>
    have h0 : r = 0 := Nat.le_zero.mp hr
    subst h0
    simp [GetLatestProposedBeaconBlock, probeOf, hb]
  | succ n ih =>
    by_cases hrs : r = n + 1
    · subst hrs
      simp [GetLatestProposedBeaconBlock, probeOf, hb]
    · have hrn : r ≤ n := Nat.lt_succ_iff.mp (lt_of_le_of_ne hr hrs)
      have hnone : blocks (n + 1) = none := hmax (n + 1) (Nat.lt_succ_of_le hrn) le_rfl
      have hstep : GetLatestProposedBeaconBlock (probeOf blocks) (n + 1) (n + 2) =
          GetLatestProposedBeaconBlock (probeOf blocks) n (n + 1) := by
        have hdec : decSlot (n + 1) = n := by simp [decSlot]
        simp only [GetLatestProposedBeaconBlock, probeOf, hnone, hdec]
      rw [hstep]
      exact ih hrn (fun k h1 h2 => hmax k h1 (Nat.le_succ_of_le h2))

/-- The beacon chain of the C3 witness: only slot 2 has a block; slot 5 (the
target), 4 and 3 are missing. -/
def c3blocks : Nat → Option BeaconBlock :=
  fun k => if k = 2 then some ⟨2⟩ else none

/-- C3 witness: walking back from target slot 5 over the missing slots 5, 4, 3
resolves to slot 2's block. -/
theorem c3_witness :
    GetLatestProposedBeaconBlock (probeOf c3blocks) 5 6 = some (Except.ok ⟨2⟩) :=
  c3_walk_returns_greatest_proposed c3blocks 5 2 ⟨2⟩ (by decide) rfl
    (by intro k h1 h2; interval_cases k <;> rfl)

/-- C4: for a head block timestamp at or after the genesis time, the
translation returns exactly `floor((t - genesisTime) / secondsPerSlot)` (and
no error), independent of the junk parameter; in particular, with 12 seconds
per slot a timestamp 123 seconds after genesis lands in slot 10. The
`0 < secondsPerSlot` hypothesis mirrors that the Go division would panic at
zero. -/
theorem c4_head_slot_formula (headerTime genesisTime secondsPerSlot negConv : Nat)
    (hsps : 0 < secondsPerSlot) (hge : genesisTime ≤ headerTime) :
    GetHeadSlot (Except.ok headerTime) genesisTime secondsPerSlot negConv =
      Except.ok ((headerTime - genesisTime) / secondsPerSlot) ∧
    GetHeadSlot (Except.ok (genesisTime + 123)) genesisTime 12 negConv = Except.ok 10 := by
  constructor
  · simp [GetHeadSlot, hge]
  · simp [GetHeadSlot, Nat.le_add_right, Nat.add_sub_cancel_left]

/-- C4 witness: genesis at 1000, head block timestamp 1123, 12 seconds per
slot: the head slot is `(1123 - 1000) / 12 = 10`. -/
theorem c4_witness :
    GetHeadSlot (Except.ok 1123) 1000 12 0 = Except.ok ((1123 - 1000) / 12) :=
  (c4_head_slot_formula 1123 1000 12 0 (by decide) (by decide)).1

/-- An iteration on which the monitored execution client is plainly still
syncing: the status-refresh interval has not elapsed and the sync-progress
probe returned an explicit progress object. -/
def ecStillSyncing (it : EcIter) : Prop :=
  it.sinceRefresh ≤ ethClientStatusRefreshInterval ∧ progressIsSome it.progress = true

instance (it : EcIter) : Decidable (ecStillSyncing it) := by
  unfold ecStillSyncing; infer_instance

/-- While every iteration keeps reporting explicit sync progress and the
timeout is not positive, the execution-client wait loop never returns. -/
theorem waitEthLoop_syncing_never_returns (t : Int) (iters : List EcIter)
    (hall : ∀ it ∈ iters, ecStillSyncing it) (ht : t ≤ 0) :
    waitEthLoop t iters = WaitResult.running := by
  induction iters with
  | nil => rfl
  | cons it rest ih =>
    obtain ⟨hrf, hps⟩ := hall it (List.mem_cons_self it rest)
    have hto : ¬(0 < t ∧ (t : Rat) < it.elapsed) := fun h => absurd h.1 (not_lt.mpr ht)
    have hnorf : ¬(ethClientStatusRefreshInterval < it.sinceRefresh) := not_lt.mpr hrf
    cases hp : it.progress with
    | error e => simp [progressIsSome, hp] at hps
    | ok o =>
      cases o with
      | none => simp [progressIsSome, hp] at hps
      | some p =>
        simp only [waitEthLoop, hto, if_false, hnorf, hp]
        exact ih (fun x hx => hall x (List.mem_cons_of_mem it hx))

/-- While every iteration keeps reporting explicit sync progress, a positive
timeout makes the execution-client wait loop return `(false, nil)` as soon as
the trace contains an iteration whose elapsed time exceeds it. -/
theorem waitEthLoop_timeout_not_ready (t : Int) (iters : List EcIter)
    (hall : ∀ it ∈ iters, ecStillSyncing it) (ht : 0 < t)
    (hex : ∃ it ∈ iters, (t : Rat) < it.elapsed) :
    waitEthLoop t iters = WaitResult.done false := by
  induction iters with
  | nil => simp at hex
  | cons it rest ih =>
    obtain ⟨hrf, hps⟩ := hall it (List.mem_cons_self it rest)
    by_cases hel : (t : Rat) < it.elapsed
    · simp [waitEthLoop, ht, hel]
    · have hnorf : ¬(ethClientStatusRefreshInterval < it.sinceRefresh) := not_lt.mpr hrf
      have hto : ¬(0 < t ∧ (t : Rat) < it.elapsed) := fun h => absurd h.2 hel
      obtain ⟨it', hmem, hlt⟩ := hex
      have hrest : ∃ x ∈ rest, (t : Rat) < x.elapsed := by
        rcases List.mem_cons.mp hmem with heq | htail
        · exact absurd (heq ▸ hlt) hel
        · exact ⟨it', htail, hlt⟩
      cases hp : it.progress with
      | error e => simp [progressIsSome, hp] at hps
      | ok o =>
        cases o with
        | none => simp [progressIsSome, hp] at hps
        | some p =>
          simp only [waitEthLoop, hto, if_false, hnorf, hp]
          exact ih (fun x hx => hall x (List.mem_cons_of_mem it hx)) hrest

/-- While every poll reports `Syncing`, the beacon wait loop never returns
when the timeout is not positive. -/
theorem waitBeaconLoop_syncing_never_returns (t : Int) (iters : List BcIter)
    (hall : ∀ it ∈ iters, it.syncStatus = Except.ok ⟨true⟩) (ht : t ≤ 0) :
    waitBeaconClientSynced t iters = WaitResult.running := by
  induction iters with
  | nil => rfl
  | cons it rest ih =>
    have hst := hall it (List.mem_cons_self it rest)
    have hto : ¬(0 < t ∧ t < it.elapsed) := fun h => absurd h.1 (not_lt.mpr ht)
    simp only [waitBeaconClientSynced, hto, if_false, hst]
    exact ih (fun x hx => hall x (List.mem_cons_of_mem it hx))

/-- While every poll reports `Syncing`, a positive timeout makes the beacon
wait loop return `(false, nil)` as soon as an iteration's elapsed time
exceeds it. -/
theorem waitBeaconLoop_timeout_not_ready (t : Int) (iters : List BcIter)
    (hall : ∀ it ∈ iters, it.syncStatus = Except.ok ⟨true⟩) (ht : 0 < t)
    (hex : ∃ it ∈ iters, t < it.elapsed) :
    waitBeaconClientSynced t iters = WaitResult.done false := by
  induction iters with
  | nil => simp at hex
  | cons it rest ih =>
    have hst := hall it (List.mem_cons_self it rest)
    by_cases hel : t < it.elapsed
    · simp [waitBeaconClientSynced, ht, hel]
    · have hto : ¬(0 < t ∧ t < it.elapsed) := fun h => absurd h.2 hel
      obtain ⟨it', hmem, hlt⟩ := hex
      have hrest : ∃ x ∈ rest, t < x.elapsed := by
        rcases List.mem_cons.mp hmem with heq | htail
        · exact absurd (heq ▸ hlt) hel
        · exact ⟨it', htail, hlt⟩
      simp only [waitBeaconClientSynced, hto, if_false, hst]
      exact ih (fun x hx => hall x (List.mem_cons_of_mem it hx)) hrest

/-- C5: for both roles, a wait whose monitored client stays syncing never
returns due to elapsed time when `timeout = 0`, and with `timeout > 0`
returns the not-ready pair `(false, nil)` — not an error — once an
iteration's elapsed time exceeds the timeout. The initial execution-layer
status check must have put the wait in its polling state (`hInit`). -/
theorem c5_timeout_semantics (initial : EcManagerStatus) (t : Int)
    (ethIters : List EcIter) (bcIters : List BcIter)
    (hInit : checkExecutionClientStatus (CheckStatus initial) = (false, some EcRef.primary, none))
    (hEth : ∀ it ∈ ethIters, ecStillSyncing it)
    (hBc : ∀ it ∈ bcIters, it.syncStatus = Except.ok ⟨true⟩)
    (ht : 0 < t) :
    waitEthClientSynced initial 0 ethIters = WaitResult.running ∧
    waitBeaconClientSynced 0 bcIters = WaitResult.running ∧
    ((∃ it ∈ ethIters, (t : Rat) < it.elapsed) →
      waitEthClientSynced initial t ethIters = WaitResult.done false) ∧
    ((∃ it ∈ bcIters, t < it.elapsed) →
      waitBeaconClientSynced t bcIters = WaitResult.done false) := by
  refine ⟨?_, ?_, ?_, ?_⟩
  · simp only [waitEthClientSynced, hInit]
    exact waitEthLoop_syncing_never_returns 0 ethIters hEth le_rfl
  · exact waitBeaconLoop_syncing_never_returns 0 bcIters hBc le_rfl
  · intro hex
    simp only [waitEthClientSynced, hInit]
    exact waitEthLoop_timeout_not_ready t ethIters hEth ht hex
  · intro hex
    exact waitBeaconLoop_timeout_not_ready t bcIters hBc ht hex

/-- The manager status of the C5/C7 witnesses: the primary execution client is
working, unsynced and error-free; no fallback is configured. -/
def wInitial : EcManagerStatus :=
  ⟨⟨true, false, ""⟩, false, ⟨false, false, ""⟩⟩

/-- The C5 witness's execution-layer iteration: 2 seconds elapsed, no refresh
due, explicit sync progress reported. -/
def c5EthIter : EcIter :=
  ⟨2, 0, wInitial, Except.ok (some ⟨5, 0, 10⟩), Except.ok 0, 0⟩

/-- The C5 witness's beacon iteration: 2 seconds elapsed, still syncing. -/
def c5BcIter : BcIter :=
  ⟨2, Except.ok ⟨true⟩⟩

/-- C5 witness: with a syncing client and a 1-second timeout exceeded at the
first poll (2 seconds elapsed), both waits return `(false, nil)`; with
`timeout = 0` they keep polling. -/
theorem c5_witness :
    waitEthClientSynced wInitial 0 [c5EthIter] = WaitResult.running ∧
    waitBeaconClientSynced 0 [c5BcIter] = WaitResult.running ∧
    ((∃ it ∈ [c5EthIter], ((1 : Int) : Rat) < it.elapsed) →
      waitEthClientSynced wInitial 1 [c5EthIter] = WaitResult.done false) ∧
    ((∃ it ∈ [c5BcIter], (1 : Int) < it.elapsed) →
      waitBeaconClientSynced 1 [c5BcIter] = WaitResult.done false) :=
  c5_timeout_semantics wInitial 1 [c5EthIter] [c5BcIter] rfl
    (by intro it hit; rw [List.mem_singleton.mp hit]; constructor <;> decide)
    (by intro it hit; rw [List.mem_singleton.mp hit]; rfl)
    (by decide)

/-- C6: whenever the primary execution client reports Synced (so the manager's
`primaryReady` flag is set), `checkExecutionClientStatus` returns ready with no
client to wait on and no error — for every fallback configuration and fallback
status, so the fallback's state is never consulted in that branch. -/
theorem c6_primary_synced_skips_fallback (primarySt fallbackSt : EcStatus)
    (fallbackEnabled : Bool) (h : primarySt.isSynced = true) :
    checkExecutionClientStatus (CheckStatus ⟨primarySt, fallbackEnabled, fallbackSt⟩) =
      (true, none, none) := by
  simp [checkExecutionClientStatus, CheckStatus, h]

/-- C6 witness: the primary reports Synced while the configured fallback is
erroring; the status check still returns ready immediately. -/
theorem c6_witness :
    checkExecutionClientStatus
      (CheckStatus ⟨⟨true, true, ""⟩, true, ⟨false, false, "connection refused"⟩⟩) =
      (true, none, none) :=
  c6_primary_synced_skips_fallback ⟨true, true, ""⟩ ⟨false, false, "connection refused"⟩ true rfl

/-- C7: a transport error from any probe of a sync wait — the `SyncProgress`
probe, the latest-block-timestamp fetch of the recency test, or the beacon
`GetSyncStatus` probe — is returned to the caller from that very iteration,
for every continuation of the trace: it is never treated as "not synced yet"
and never followed by another poll. -/
theorem c7_probe_errors_propagate (t : Int) (it : EcIter) (bit : BcIter)
    (rest : List EcIter) (brest : List BcIter) (e : String)
    (hto : ¬(0 < t ∧ (t : Rat) < it.elapsed))
    (hrf : it.sinceRefresh ≤ ethClientStatusRefreshInterval)
    (hbto : ¬(0 < t ∧ t < bit.elapsed)) :
    (it.progress = Except.error e → waitEthLoop t (it :: rest) = WaitResult.failed e) ∧
    (it.progress = Except.ok none → it.latestBlockTimestamp = Except.error e →
      waitEthLoop t (it :: rest) = WaitResult.failed e) ∧
    (bit.syncStatus = Except.error e →
      waitBeaconClientSynced t (bit :: brest) = WaitResult.failed e) := by
  have hnorf : ¬(ethClientStatusRefreshInterval < it.sinceRefresh) := not_lt.mpr hrf
  refine ⟨?_, ?_, ?_⟩
  · intro hp
    simp [waitEthLoop, hto, hnorf, hp]
  · intro hp hts
    simp [waitEthLoop, hto, hnorf, hp, IsSyncWithinThreshold, hts]
  · intro hs
    simp [waitBeaconClientSynced, hbto, hs]

/-- The C7 witness's execution-layer iteration: both probes fail with a
transport error. -/
def c7EthIter : EcIter :=
  ⟨0, 0, wInitial, Except.error "connection reset", Except.error "connection reset", 0⟩

/-- The C7 witness's beacon iteration: the `GetSyncStatus` probe fails. -/
def c7BcIter : BcIter :=
  ⟨0, Except.error "connection reset"⟩

/-- C7 witness: at `timeout = 0` with a failing probe in the first iteration,
both waits return the transport error itself. -/
theorem c7_witness :
    (c7EthIter.progress = Except.error "connection reset" →
      waitEthLoop 0 [c7EthIter] = WaitResult.failed "connection reset") ∧
    (c7EthIter.progress = Except.ok none →
      c7EthIter.latestBlockTimestamp = Except.error "connection reset" →
      waitEthLoop 0 [c7EthIter] = WaitResult.failed "connection reset") ∧
    (c7BcIter.syncStatus = Except.error "connection reset" →
      waitBeaconClientSynced 0 [c7BcIter] = WaitResult.failed "connection reset") :=
  c7_probe_errors_propagate 0 c7EthIter c7BcIter [] [] "connection reset"
    (fun h => absurd h.1 (lt_irrefl 0)) (by norm_num [c7EthIter, ethClientStatusRefreshInterval])
    (fun h => absurd h.1 (lt_irrefl 0))

/-- C8: during an execution-client sync wait, on an iteration whose
`SyncProgress` probe returns no progress object (and which hits neither the
timeout nor the status refresh), the wait returns success exactly when the
client's latest known block timestamp is within the 5-minute recency window
of the wall clock; an older timestamp makes the loop continue with the next
poll instead of returning. -/
theorem c8_recency_window_gates_success (t : Int) (it : EcIter) (rest : List EcIter) (ts : Nat)
    (hto : ¬(0 < t ∧ (t : Rat) < it.elapsed))
    (hrf : it.sinceRefresh ≤ ethClientStatusRefreshInterval)
    (hprog : it.progress = Except.ok none)
    (hts : it.latestBlockTimestamp = Except.ok ts) :
    (waitEthLoop t [it] = WaitResult.done true ↔
      it.now - (ts : Int) < ethClientRecentBlockThreshold) ∧
    (it.now - (ts : Int) < ethClientRecentBlockThreshold →
      waitEthLoop t (it :: rest) = WaitResult.done true) ∧
    (ethClientRecentBlockThreshold ≤ it.now - (ts : Int) →
      waitEthLoop t (it :: rest) = waitEthLoop t rest) := by
  have hnorf : ¬(ethClientStatusRefreshInterval < it.sinceRefresh) := not_lt.mpr hrf
  refine ⟨?_, ?_, ?_⟩
  · constructor
    · intro hres
      by_contra hfar
      simp [waitEthLoop, hto, hnorf, hprog, IsSyncWithinThreshold, hts, hfar] at hres
    · intro hnear
      simp [waitEthLoop, hto, hnorf, hprog, IsSyncWithinThreshold, hts, hnear]
  · intro hnear
    simp [waitEthLoop, hto, hnorf, hprog, IsSyncWithinThreshold, hts, hnear]
  · intro hfar
    simp [waitEthLoop, hto, hnorf, hprog, IsSyncWithinThreshold, hts, not_lt.mpr hfar]

/-- The C8 witness's iteration: no progress object, latest block timestamp
100, wall clock 150 — the block is 50 seconds old, within the 5-minute
window. -/
def c8EthIter : EcIter :=
  ⟨0, 0, wInitial, Except.ok none, Except.ok 100, 150⟩

/-- C8 witness: at that iteration the wait returns success, since
150 - 100 < 300. -/
theorem c8_witness :
    (waitEthLoop 0 [c8EthIter] = WaitResult.done true ↔
      c8EthIter.now - ((100 : Nat) : Int) < ethClientRecentBlockThreshold) ∧
    (c8EthIter.now - ((100 : Nat) : Int) < ethClientRecentBlockThreshold →
      waitEthLoop 0 [c8EthIter] = WaitResult.done true) ∧
    (ethClientRecentBlockThreshold ≤ c8EthIter.now - ((100 : Nat) : Int) →
      waitEthLoop 0 [c8EthIter] = waitEthLoop 0 []) :=
  c8_recency_window_gates_success 0 c8EthIter [] 100
    (fun h => absurd h.1 (lt_irrefl 0)) (by norm_num [c8EthIter, ethClientStatusRefreshInterval]) rfl rfl

/-- C9: the latest published snapshot starts absent; a successful build
publishes exactly its snapshot; a failed build (its error returned as-is)
leaves the published snapshot untouched; and over any build history, the
published snapshot is exactly the last successful build's — so no failed or
partial build is ever observable through `GetLatestState`. -/
theorem c9_latest_state_publication :
    GetLatestState (runUpdates []) = none ∧
    (∀ builds s, GetLatestState (runUpdates (builds ++ [Except.ok s])) = some s) ∧
    (∀ latest e, updateState latest (Except.error e) = (latest, Except.error e)) ∧
    (∀ builds, GetLatestState (runUpdates builds) = lastSuccessfulBuild builds) := by
  refine ⟨rfl, ?_, ?_, ?_⟩
  · intro builds s
    simp [GetLatestState, runUpdates, List.foldl_append, updateState]
  · intro latest e
    rfl
  · intro builds
    have hstep : (fun (latest : Option NetworkState) b => (updateState latest b).1) =
        (fun acc b =>
          match b with
          | Except.ok st => some st
          | Except.error _ => acc) := by
      funext l b
      cases b <;> rfl
    simp [GetLatestState, runUpdates, lastSuccessfulBuild, hstep]

/-- With no timeout, the beacon wait returns success exactly when some poll
reports `Syncing = false` after a prefix of polls all reporting
`Syncing = true` (an earlier transport error or an exhausted trace gives no
success). -/
theorem waitBeacon_done_true_iff (iters : List BcIter) :
    waitBeaconClientSynced 0 iters = WaitResult.done true ↔
      ∃ pre it post, iters = pre ++ it :: post ∧
        (∀ p ∈ pre, p.syncStatus = Except.ok ⟨true⟩) ∧
        it.syncStatus = Except.ok ⟨false⟩ := by
  induction iters with
  | nil =>
    constructor
    · intro h
      simp [waitBeaconClientSynced] at h
    · rintro ⟨pre, it, post, heq, -, -⟩
      cases pre <;> simp at heq
  | cons it rest ih =>
    have hto : ¬((0 : Int) < 0 ∧ (0 : Int) < it.elapsed) := fun h => absurd h.1 (lt_irrefl 0)
    cases hs : it.syncStatus with
    | error e =>
      simp only [waitBeaconClientSynced, hto, if_false, hs]
      constructor
      · intro h
        simp at h
      · rintro ⟨pre, it', post, heq, hpre, hit⟩
        cases pre with
        | nil =>
          simp only [List.nil_append, List.cons.injEq] at heq
          rw [← heq.1] at hit
          rw [hs] at hit
          simp at hit
        | cons q pre' =>
          simp only [List.cons_append, List.cons.injEq] at heq
          have hq := hpre q (List.mem_cons_self q pre')
          rw [← heq.1] at hq
          rw [hs] at hq
          simp at hq
    | ok s =>
      cases s with
      | mk syncing =>
        cases syncing with
        | false =>
          simp only [waitBeaconClientSynced, hto, if_false, hs]
          constructor
          · intro _
            exact ⟨[], it, rest, rfl, by simp, hs⟩
          · intro _
            rfl
        | true =>
          simp only [waitBeaconClientSynced, hto, if_false, hs, if_true]
          rw [ih]
          constructor
          · rintro ⟨pre, it', post, heq, hpre, hit⟩
            refine ⟨it :: pre, it', post, by rw [heq, List.cons_append], ?_, hit⟩
            intro p hp
            rcases List.mem_cons.mp hp with hphead | hptail
            · rw [hphead]
              exact hs
            · exact hpre p hptail
          · rintro ⟨pre, it', post, heq, hpre, hit⟩
            cases pre with
            | nil =>
              simp only [List.nil_append, List.cons.injEq] at heq
              rw [← heq.1] at hit
              rw [hs] at hit
              simp at hit
            | cons q pre' =>
              simp only [List.cons_append, List.cons.injEq] at heq
              exact ⟨pre', it', post, heq.2, fun p hp => hpre p (List.mem_cons_of_mem q hp), hit⟩

/-- With no timeout, the beacon wait's outcome depends only on the sequence of
`GetSyncStatus` responses: rewriting every iteration's clock reading changes
nothing. -/
theorem waitBeacon_elapsed_irrelevant (iters : List BcIter) (g : BcIter → Int) :
    waitBeaconClientSynced 0 (iters.map fun it => ⟨g it, it.syncStatus⟩) =
      waitBeaconClientSynced 0 iters := by
  induction iters with
  | nil => rfl
  | cons it rest ih =>
    cases hs : it.syncStatus with
    | error e => simp [waitBeaconClientSynced, hs]
    | ok s =>
      cases hb : s.syncing <;> simp [waitBeaconClientSynced, hs, hb, ih]

/-- C10: the beacon-role sync wait consults nothing but the consensus client's
`GetSyncStatus` responses: with `timeout = 0` it succeeds exactly when some
poll reports `Syncing = false` (after polls that all reported `Syncing =
true`), and its outcome is unchanged under any rewriting of the clock
readings — there is no primary/fallback evaluation, no status refresh and no
recency test in the loop. -/
theorem c10_beacon_wait_consults_only_sync_status (iters : List BcIter) :
    (waitBeaconClientSynced 0 iters = WaitResult.done true ↔
      ∃ pre it post, iters = pre ++ it :: post ∧
        (∀ p ∈ pre, p.syncStatus = Except.ok ⟨true⟩) ∧
        it.syncStatus = Except.ok ⟨false⟩) ∧
    (∀ g : BcIter → Int,
      waitBeaconClientSynced 0 (iters.map fun it => ⟨g it, it.syncStatus⟩) =
        waitBeaconClientSynced 0 iters) :=
  ⟨waitBeacon_done_true_iff iters, fun g => waitBeacon_elapsed_irrelevant iters g⟩
